import Mathlib

/-
  Verification of the log-analyzer pipeline (src/log_analyze/log_analyzer.py)
  against its natural-language specification.

  Modelling conventions, used throughout:
  * Python floats are modelled by exact rationals (type ℚ); request times
    and percentages are rationals, and round(x, 3) is modelled by exact
    round-half-to-even on rationals, the tie rule of the Python round.
  * A log line is modelled by its match outcome against the fixed line
    regex of parse_log: none when the line does not match, and
    some (url, t) with the captured url group and request_time group when
    it does.  The regex internals of the line pattern are not the subject
    of any claim and are abstracted into this per-line outcome.
  * Python exceptions are modelled by Except values; a ZeroDivisionError
    and the RuntimeError of the drop gate are distinct error values, the
    latter carrying the two percentages that the source interpolates into
    the error message.
  * The filesystem is modelled explicitly: a directory listing is a list
    of file names (none when the directory is absent), the report
    directory is the list of paths of existing report files, and the
    contents of a log file are supplied by a function from names to line
    lists.  The constant ROOT_DIR prefix of os.path.join is elided; the
    configured REPORT_DIR value ends in a slash, so the join is string
    concatenation.
-/

/-- Round half to even on rationals, the rounding used by the Python
built-in round: floor when the fractional part is below one half, the
next integer when above, and the even neighbour on an exact tie. -/
def roundHalfEven (x : ℚ) : ℤ :=
  let f := ⌊x⌋
  let r := x - (f : ℚ)
  if r < 1/2 then f
  else if 1/2 < r then f + 1
  else if f % 2 = 0 then f else f + 1

/-- Rounding to three decimal places, round(x, 3) in log_analyzer.py
(lines 123, 158, 159). -/
def round3 (x : ℚ) : ℚ := (roundHalfEven (x * 1000) : ℚ) / 1000

/-- Decidable equality for Except, used so that concrete runs of the
modelled fallible functions can be evaluated inside proofs. -/
instance {ε α : Type} [DecidableEq ε] [DecidableEq α] : DecidableEq (Except ε α) := fun x y =>
  match x, y with
  | .error a, .error b =>
    if h : a = b then isTrue (by rw [h]) else isFalse (fun hh => h (Except.error.inj hh))
  | .error _, .ok _ => isFalse (fun hh => Except.noConfusion hh)
  | .ok _, .error _ => isFalse (fun hh => Except.noConfusion hh)
  | .ok a, .ok b =>
    if h : a = b then isTrue (by rw [h]) else isFalse (fun hh => h (Except.ok.inj hh))

/-- The configuration keys consumed by the pipeline under verification:
REPORT_SIZE (maximum number of report rows), MAX_DROP (allowed parse
failure percentage) and REPORT_DIR (directory of generated reports).
LOG_DIR and REPORT_SAMPLE only name filesystem locations, which the
model passes explicitly. -/
structure Config where
  REPORT_SIZE : ℕ
  MAX_DROP : ℚ
  REPORT_DIR : String
deriving DecidableEq

/-- A calendar date, as produced by datetime.datetime.strptime with
format %Y%m%d followed by .date(). -/
structure Date where
  y : ℕ
  m : ℕ
  d : ℕ
deriving DecidableEq

/-- Numeric encoding of a date.  On the dates produced by the strptime
model (month at most 12, day at most 31) the order of the encodings is
exactly the lexicographic order on (year, month, day), which is how
Python compares datetime.date values at line 71. -/
def encDate (x : Date) : ℕ := x.y * 10000 + x.m * 100 + x.d

/-- datetime.date.min, the sentinel initial value of latest_date
(line 64). -/
def dateMin : Date := ⟨1, 1, 1⟩

/-- Numeric value of a digit character. -/
def digitVal (c : Char) : ℕ := c.toNat - 48

/-- The month alternatives of the CPython strptime regex for %m, in
regex order: 1[0-2], then 0[1-9], then [1-9].  Each successful
alternative is returned with the unconsumed remainder. -/
def monthAlts : List Char → List (ℕ × List Char)
  | c1 :: c2 :: rest =>
    (if c1 = '1' ∧ (c2 = '0' ∨ c2 = '1' ∨ c2 = '2') then [(10 + digitVal c2, rest)] else []) ++
    (if c1 = '0' ∧ '1' ≤ c2 ∧ c2 ≤ '9' then [(digitVal c2, rest)] else []) ++
    (if '1' ≤ c1 ∧ c1 ≤ '9' then [(digitVal c1, c2 :: rest)] else [])
  | [c1] => if '1' ≤ c1 ∧ c1 ≤ '9' then [(digitVal c1, [])] else []
  | [] => []

/-- The day alternatives of the CPython strptime regex for %d, in regex
order: 3[01], then [12] followed by a digit, then 0[1-9], then [1-9]. -/
def dayAlts : List Char → List (ℕ × List Char)
  | c1 :: c2 :: rest =>
    (if c1 = '3' ∧ (c2 = '0' ∨ c2 = '1') then [(30 + digitVal c2, rest)] else []) ++
    (if (c1 = '1' ∨ c1 = '2') ∧ c2.isDigit then [(digitVal c1 * 10 + digitVal c2, rest)] else []) ++
    (if c1 = '0' ∧ '1' ≤ c2 ∧ c2 ≤ '9' then [(digitVal c2, rest)] else []) ++
    (if '1' ≤ c1 ∧ c1 ≤ '9' then [(digitVal c1, c2 :: rest)] else [])
  | [c1] => if '1' ≤ c1 ∧ c1 ≤ '9' then [(digitVal c1, [])] else []
  | [] => []

/-- Backtracking of the regex engine across the %m and %d groups: the
first month alternative that lets some day alternative match, and for it
the first matching day alternative. -/
def mdMatch (cs : List Char) : Option (ℕ × ℕ × List Char) :=
  (monthAlts cs).findSome? (fun mc =>
    match dayAlts mc.2 with
    | [] => none
    | dc :: _ => some (mc.1, dc.1, dc.2))

/-- Matching of the CPython strptime regex for %Y%m%d against a
character list: exactly four digits for the year, then the month and day
groups; the unconsumed remainder is returned for the leftover check. -/
def parseYmd (cs : List Char) : Option (ℕ × ℕ × ℕ × List Char) :=
  match cs with
  | a :: b :: c :: d :: rest =>
    if a.isDigit ∧ b.isDigit ∧ c.isDigit ∧ d.isDigit then
      match mdMatch rest with
      | some (m, dd, leftover) =>
        some (digitVal a * 1000 + digitVal b * 100 + digitVal c * 10 + digitVal d, m, dd, leftover)
      | none => none
    else none
  | _ => none

/-- Gregorian leap year rule, as applied by the datetime module. -/
def isLeap (y : ℕ) : Bool := y % 4 == 0 && (y % 100 != 0 || y % 400 == 0)

/-- Days in a month of a year, as validated by the datetime constructor. -/
def daysInMonth (y m : ℕ) : ℕ :=
  if m = 2 then (if isLeap y then 29 else 28)
  else if m = 4 ∨ m = 6 ∨ m = 9 ∨ m = 11 then 30 else 31

/-- datetime.datetime.strptime(s, percent-Y-m-d).date() as called at
line 70: none models a ValueError (format mismatch, unconverted leftover
data, year zero, or an invalid calendar day). -/
def strptimeYmd (s : String) : Option Date :=
  match parseYmd s.data with
  | none => none
  | some (yy, mm, dd, leftover) =>
    if leftover = [] ∧ 1 ≤ yy ∧ dd ≤ daysInMonth yy mm then some ⟨yy, mm, dd⟩ else none

/-- Characters of the literal part of the filename regex before its dot
wildcard.  The dot in nginx-access-ui.log is a regex wildcard, matching
any single character. -/
def litHead : List Char := (r"nginx-access-ui").data

/-- Characters of the literal part of the filename regex after the dot
wildcard, up to the date group. -/
def litTail : List Char := (r"log-").data

/-- Strip an expected literal character sequence from the front of a
character list. -/
def stripLit : List Char → List Char → Option (List Char)
  | [], rest => some rest
  | _ :: _, [] => none
  | p :: ps, c :: cs => if c = p then stripLit ps cs else none

/-- One attempted match of the filename regex at a fixed start position:
the literal head, one arbitrary character for the dot wildcard, the
literal tail, then the date group, a nonempty maximal digit run.  The
trailing part of the regex, dot-star followed by (gz or end), matches
every remainder and so constrains nothing. -/
def tryMatchAt (cs : List Char) : Option (List Char) :=
  match stripLit litHead cs with
  | none => none
  | some rest1 =>
    match rest1 with
    | [] => none
    | _ :: rest2 =>
      match stripLit litTail rest2 with
      | none => none
      | some rest3 =>
        let ds := rest3.takeWhile Char.isDigit
        if ds = [] then none else some ds

/-- re.search scanning: the attempted match is made at every start
position from left to right and the first success wins. -/
def findTokenAux : List Char → Option (List Char)
  | [] => none
  | c :: rest =>
    match tryMatchAt (c :: rest) with
    | some ds => some ds
    | none => findTokenAux rest

/-- The date group extracted from a directory entry by the compiled
regex of find_latest_log (line 63), or none when the entry does not
match. -/
def findToken (s : String) : Option String :=
  (findTokenAux s.data).map (fun l => String.mk l)

/-- The date a directory entry contributes: its date group parsed by the
strptime model.  none either when the entry does not match the pattern
or when its date group fails to parse. -/
def entryDate (e : String) : Option Date := (findToken e).bind strptimeYmd

/-- The namedtuple LogFile of line 25: file name and parsed date. -/
structure LogFile where
  name : String
  date : Date
deriving DecidableEq

/-- The directory scan loop of find_latest_log (lines 67..73), carrying
latest_date and latest_file.  A date group that fails to parse raises
ValueError out of the loop, modelled by the error case; there is no
try-except in the source. -/
def locLoop : List String → Date → String → Except Unit (Date × String)
  | [], dt, f => .ok (dt, f)
  | e :: rest, dt, f =>
    match findToken e with
    | none => locLoop rest dt f
    | some tok =>
      match strptimeYmd tok with
      | none => .error ()
      | some de => if encDate dt < encDate de then locLoop rest de e else locLoop rest dt f

/-- find_latest_log (lines 50..79).  The argument is the directory
listing, none when the log directory does not exist.  The function
returns some LogFile when a matching entry with a date after the
sentinel datetime.date.min was seen, and none otherwise (missing
directory, no matching entry, or only sentinel dates); a ValueError from
strptime propagates as an error. -/
def find_latest_log (listing : Option (List String)) : Except Unit (Option LogFile) :=
  match listing with
  | none => .ok none
  | some entries =>
    match locLoop entries dateMin (r"") with
    | .error e => .error e
    | .ok (dt, f) => .ok (if encDate dateMin < encDate dt then some ⟨f, dt⟩ else none)

/-- The generator body of parse_log (lines 97..106) with its two
counters: every line increments summary_lines, every matching line
increments parsed_lines and yields the triple of match data and the two
current counter values. -/
def parseFrom : ℕ → ℕ → List (Option (String × ℚ)) → List ((String × ℚ) × ℕ × ℕ)
  | _, _, [] => []
  | s, p, none :: rest => parseFrom (s + 1) p rest
  | s, p, some d :: rest => (d, s + 1, p + 1) :: parseFrom (s + 1) (p + 1) rest

/-- parse_log (lines 82..106): the lazy generator is modelled by the
full list of triples it yields, starting from zero counters. -/
def parse_log (file : List (Option (String × ℚ))) : List ((String × ℚ) × ℕ × ℕ) :=
  parseFrom 0 0 file

/-- Number of lines of a file that match the line pattern. -/
def countMatched (file : List (Option (String × ℚ))) : ℕ :=
  (file.filter (fun l => l.isSome)).length

/-- The per-url accumulation of request times (lines 119..122):
urls[url].append(request_time), with the KeyError branch inserting a new
key at the end, preserving dict insertion order. -/
def updateUrls : List (String × List ℚ) → String → ℚ → List (String × List ℚ)
  | [], u, t => [(u, [t])]
  | (k, v) :: rest, u, t =>
    if k = u then (k, v ++ [t]) :: rest else (k, v) :: updateUrls rest u t

/-- Errors of aggregate_parse_values: the ZeroDivisionError raised by
the drop computation when summary_lines is zero, and the RuntimeError of
line 128, carrying the computed drop percentage and the allowed
percentage that the source interpolates into its message. -/
inductive AggError where
  | zeroDivision : AggError
  | runtime : ℚ → ℚ → AggError
deriving DecidableEq

/-- The consuming loop of aggregate_parse_values (lines 110..122).  The
loop variables summary_lines and parsed_lines are rebound at every
yielded triple, so after the loop they hold the values of the last
yield, or their initial zeros when nothing was yielded. -/
def aggLoop : List ((String × ℚ) × ℕ × ℕ) → List (String × List ℚ) → ℚ → ℕ → ℕ →
    List (String × List ℚ) × ℚ × ℕ × ℕ
  | [], urls, rt, s, p => (urls, rt, s, p)
  | (d, s1, p1) :: rest, urls, rt, _, _ =>
    aggLoop rest (updateUrls urls d.1 d.2) (rt + d.2) s1 p1

/-- The drop-rate gate of aggregate_parse_values (lines 123..131):
division by a zero summary_lines raises ZeroDivisionError; otherwise the
drop ratio is rounded to three decimals and compared with MAX_DROP,
raising RuntimeError with both percentages when it exceeds the
threshold. -/
def dropGate (cfg : Config) (urls : List (String × List ℚ)) (requests_time : ℚ)
    (summary_lines parsed_lines : ℕ) : Except AggError (List (String × List ℚ) × ℕ × ℚ) :=
  if summary_lines = 0 then .error .zeroDivision
  else
    let dropped := round3 (((summary_lines : ℚ) - (parsed_lines : ℚ)) / (summary_lines : ℚ) * 100)
    if cfg.MAX_DROP < dropped then .error (.runtime dropped cfg.MAX_DROP)
    else .ok (urls, summary_lines, requests_time)

/-- aggregate_parse_values (lines 109..131): drain the parser output,
then apply the drop-rate gate to the final loop state. -/
def aggregate_parse_values (cfg : Config) (yields : List ((String × ℚ) × ℕ × ℕ)) :
    Except AggError (List (String × List ℚ) × ℕ × ℚ) :=
  let st := aggLoop yields [] 0 0 0
  dropGate cfg st.1 st.2.1 st.2.2.1 st.2.2.2

/-- Sum of a list of rationals, the Python built-in sum at lines
154, 155, 159. -/
def qsum : List ℚ → ℚ
  | [] => 0
  | x :: xs => x + qsum xs

/-- Maximum of a list of rationals, the Python built-in max at line 156.
Python raises ValueError on an empty list; the aggregator only ever
produces nonempty per-url lists, and the zero default is unreachable
from the pipeline. -/
def qmax : List ℚ → ℚ
  | [] => 0
  | x :: xs => xs.foldl max x

/-- statistics.median at line 157: sort the values; for odd length take
the middle one, for even length the mean of the two middle ones.
statistics raises StatisticsError on an empty list; the zero default for
an empty list is unreachable from the pipeline. -/
def pymedian (l : List ℚ) : ℚ :=
  let s := List.insertionSort (fun a b : ℚ => a ≤ b) l
  let n := l.length
  if n % 2 = 1 then s.getD (n / 2) 0
  else (s.getD (n / 2 - 1) 0 + s.getD (n / 2) 0) / 2

/-- One row of the report table: the metrics dict built at lines
150..159, with its keys in insertion order. -/
structure Metrics where
  url : String
  count : ℕ
  time_sum : ℚ
  time_avg : ℚ
  time_max : ℚ
  time_med : ℚ
  count_perc : ℚ
  time_perc : ℚ
deriving DecidableEq

/-- The metrics dict computed for one url and its time list (lines
150..159). -/
def mkUrlMetrics (url : String) (value : List ℚ) (summary_lines : ℕ)
    (requests_time : ℚ) : Metrics :=
  { url := url
    count := value.length
    time_sum := qsum value
    time_avg := qsum value / (value.length : ℚ)
    time_max := qmax value
    time_med := pymedian value
    count_perc := round3 ((value.length : ℚ) / (summary_lines : ℚ) * 100)
    time_perc := round3 (qsum value / requests_time * 100) }

/-- The table built by the for loop of calculate_report_metrics (lines
148..160): one appended row per key of the url dict, in iteration
order. -/
def metricsTable (urls : List (String × List ℚ)) (summary_lines : ℕ)
    (requests_time : ℚ) : List Metrics :=
  urls.map (fun p => mkUrlMetrics p.1 p.2 summary_lines requests_time)

/-- The ranking relation of the truncation step: row a is ranked at
least as high as row b when its time_avg is at least that of b.  A
stable sort by this relation is exactly the Python
sorted(key=time_avg, reverse=True), which is guaranteed stable. -/
def avgGe (a b : Metrics) : Prop := b.time_avg ≤ a.time_avg

instance : DecidableRel avgGe := fun a b => inferInstanceAs (Decidable (b.time_avg ≤ a.time_avg))

instance : IsTotal Metrics avgGe := ⟨fun a b => le_total b.time_avg a.time_avg⟩

instance : IsTrans Metrics avgGe := ⟨fun _ _ _ h1 h2 => le_trans h2 h1⟩

/-- calculate_report_metrics (lines 134..164): build the full table;
when it is longer than REPORT_SIZE, stable-sort by descending time_avg
and keep the first REPORT_SIZE rows, otherwise return it unchanged.
List.insertionSort with avgGe computes the same list as any stable sort
by descending time_avg, hence the same list as the Python sorted call at
line 163. -/
def calculate_report_metrics (cfg : Config) (urls : List (String × List ℚ))
    (summary_lines : ℕ) (requests_time : ℚ) : List Metrics :=
  let table := metricsTable urls summary_lines requests_time
  if cfg.REPORT_SIZE < table.length then
    (List.insertionSort avgGe table).take cfg.REPORT_SIZE
  else table

/-- Decimal digits of a natural number padded to two places, strftime
percent-m and percent-d. -/
def pad2 (n : ℕ) : String := if n < 10 then r"0" ++ toString n else toString n

/-- Decimal digits of a natural number padded to four places, strftime
percent-Y. -/
def pad4 (n : ℕ) : String :=
  if n < 10 then r"000" ++ toString n
  else if n < 100 then r"00" ++ toString n
  else if n < 1000 then r"0" ++ toString n
  else toString n

/-- The report filename as computed inside generate_report (line 176)
from the date of the log file. -/
def report_file_generate (file_date : Date) : String :=
  r"report-" ++ pad4 file_date.y ++ r"." ++ pad2 file_date.m ++ r"." ++ pad2 file_date.d ++ r".html"

/-- The report filename as computed inside report_is_exist (line 189)
from the date of the log file; the f-string is duplicated verbatim in
the source. -/
def report_file_exist (file_date : Date) : String :=
  r"report-" ++ pad4 file_date.y ++ r"." ++ pad2 file_date.m ++ r"." ++ pad2 file_date.d ++ r".html"

/-- report_is_exist (lines 188..190): membership of the computed report
path in the report directory, modelled as the list of existing report
file paths. -/
def report_is_exist (cfg : Config) (reports : List String) (file_date : Date) : Bool :=
  decide ((cfg.REPORT_DIR ++ report_file_exist file_date) ∈ reports)

/-- Outcome oracle for the file operations of generate_report: every
run either succeeds, or fails to open the template, or fails reading
the template after the report file was opened, or fails writing the
report. -/
inductive GenOutcome where
  | ok : GenOutcome
  | openTemplateFail : GenOutcome
  | readFail : GenOutcome
  | writeFail : GenOutcome
deriving DecidableEq

/-- Errors surfaced by the modelled pipeline run. -/
inductive MainErr where
  | locator : MainErr
  | quality : MainErr
  | ioFail : MainErr
deriving DecidableEq

/-- generate_report (lines 167..185) as a transition on the report
directory, following the statement order of the source: the template is
opened first (failure leaves the directory unchanged), then
open(report_path, w) creates the report file, then the template is read
and the substituted text is written (failure at either step leaves the
just-created file behind).  The first component is the surfaced result,
the second the report directory afterwards. -/
def generate_report_io (oc : GenOutcome) (path : String) (reports : List String) :
    Except MainErr Unit × List String :=
  match oc with
  | .openTemplateFail => (.error .ioFail, reports)
  | .readFail => (.error .ioFail, path :: reports)
  | .writeFail => (.error .ioFail, path :: reports)
  | .ok => (.ok (), path :: reports)

/-- The function main of the source (lines 193..204; the name main is reserved in Lean): locate the latest log, short-circuit when no
log was found or the report already exists, otherwise parse, aggregate,
compute metrics and generate the report.  getLog supplies the line list
of a log file by name; oc is the file-operation outcome of the
generation step.  The value is the report directory after the run. -/
def mainRun (cfg : Config) (listing : Option (List String)) (reports : List String)
    (getLog : String → List (Option (String × ℚ))) (oc : GenOutcome) :
    Except MainErr (List String) :=
  match find_latest_log listing with
  | .error _ => .error .locator
  | .ok none => .ok reports
  | .ok (some lf) =>
    if report_is_exist cfg reports lf.date then .ok reports
    else
      match aggregate_parse_values cfg (parse_log (getLog lf.name)) with
      | .error _ => .error .quality
      | .ok (urls, summary_lines, requests_time) =>
        let _table := calculate_report_metrics cfg urls summary_lines requests_time
        match generate_report_io oc (cfg.REPORT_DIR ++ report_file_generate lf.date) reports with
        | (.error e, _) => .error e
        | (.ok _, reports2) => .ok reports2

/-- The single quote character, as a string. -/
def squo : String := String.mk [Char.ofNat 39]

/-- The double quote character, as a string. -/
def dquo : String := String.mk [Char.ofNat 34]

/-- The opening brace character, as a string. -/
def obr : String := String.mk [Char.ofNat 123]

/-- The closing brace character, as a string. -/
def cbr : String := String.mk [Char.ofNat 125]

/-- Textual rendering of a rational number, standing in for the Python
textual rendering of floats and ints.  The claims settled here never
depend on the digits of a number, only on the surrounding punctuation,
and the same rendering is shared by both serializers below. -/
def numRepr (q : ℚ) : String :=
  if q.den = 1 then toString q.num else toString q.num ++ r"/" ++ toString q.den

/-- repr of one Python metrics dict, as produced by str(table) inside
the safe_substitute call (line 183): single-quoted keys and string
values, keys in insertion order.  Urls captured from the log pattern are
assumed to contain no quote characters. -/
def pyStrDict (mr : Metrics) : String :=
  obr ++ squo ++ r"url" ++ squo ++ r": " ++ squo ++ mr.url ++ squo ++ r", " ++
  squo ++ r"count" ++ squo ++ r": " ++ toString mr.count ++ r", " ++
  squo ++ r"time_sum" ++ squo ++ r": " ++ numRepr mr.time_sum ++ r", " ++
  squo ++ r"time_avg" ++ squo ++ r": " ++ numRepr mr.time_avg ++ r", " ++
  squo ++ r"time_max" ++ squo ++ r": " ++ numRepr mr.time_max ++ r", " ++
  squo ++ r"time_med" ++ squo ++ r": " ++ numRepr mr.time_med ++ r", " ++
  squo ++ r"count_perc" ++ squo ++ r": " ++ numRepr mr.count_perc ++ r", " ++
  squo ++ r"time_perc" ++ squo ++ r": " ++ numRepr mr.time_perc ++ cbr

/-- Comma-joined dict reprs, the inner part of str of a Python list. -/
def pyStrItems : List Metrics → String
  | [] => r""
  | [mr] => pyStrDict mr
  | mr :: mr2 :: rest => pyStrDict mr ++ r", " ++ pyStrItems (mr2 :: rest)

/-- str(table) for a Python list of metrics dicts, the text actually
substituted for the placeholder by generate_report (line 183). -/
def pyStrTable (table : List Metrics) : String := r"[" ++ pyStrItems table ++ r"]"

/-- Modelled from the spec: the JSON serialization of one metrics
record, an object with double-quoted keys and string values, numeric
fields as numbers.  The source contains no JSON serialization of the
table; this definition follows the words of the specification for
comparison with the text the source actually substitutes. -/
def jsonDict (mr : Metrics) : String :=
  obr ++ dquo ++ r"url" ++ dquo ++ r": " ++ dquo ++ mr.url ++ dquo ++ r", " ++
  dquo ++ r"count" ++ dquo ++ r": " ++ toString mr.count ++ r", " ++
  dquo ++ r"time_sum" ++ dquo ++ r": " ++ numRepr mr.time_sum ++ r", " ++
  dquo ++ r"time_avg" ++ dquo ++ r": " ++ numRepr mr.time_avg ++ r", " ++
  dquo ++ r"time_max" ++ dquo ++ r": " ++ numRepr mr.time_max ++ r", " ++
  dquo ++ r"time_med" ++ dquo ++ r": " ++ numRepr mr.time_med ++ r", " ++
  dquo ++ r"count_perc" ++ dquo ++ r": " ++ numRepr mr.count_perc ++ r", " ++
  dquo ++ r"time_perc" ++ dquo ++ r": " ++ numRepr mr.time_perc ++ cbr

/-- Modelled from the spec: comma-joined JSON objects. -/
def jsonItems : List Metrics → String
  | [] => r""
  | [mr] => jsonDict mr
  | mr :: mr2 :: rest => jsonDict mr ++ r", " ++ jsonItems (mr2 :: rest)

/-- Modelled from the spec: the JSON array serialization of the metrics
table. -/
def jsonTable (table : List Metrics) : String := r"[" ++ jsonItems table ++ r"]"

/-- Template(content).safe_substitute(table_json=table) at lines
182..183, for a template whose content is pre, then the single
placeholder, then post: the placeholder is replaced by str(table). -/
def renderTemplate (pre post : String) (table : List Metrics) : String :=
  pre ++ pyStrTable table ++ post

/-- A demonstration configuration with the default REPORT_SIZE 1000 and
REPORT_DIR, and a chosen MAX_DROP. -/
def cfgDemo (maxDrop : ℚ) : Config := ⟨1000, maxDrop, r"resources/REPORTS_DIR/"⟩

/-- First url of the repository test fixture. -/
def u1 : String := r"/api/v2/banner/25019354 "

/-- Second url of the repository test fixture. -/
def u2 : String := r"/api/1/photogenic_banners/list/?server_name=WIN7RB4 "

/-- Third url of the repository test fixture. -/
def u3 : String := r"/api/v2/banner/16852664 "

/-- A six-line log file, five lines matching, with the unmatched line
in second position and the urls and times of the repository test
fixture: the aggregate sees total 6 and matched 5. -/
def file6 : List (Option (String × ℚ)) :=
  [some (u1, 39/100), none, some (u1, 39/100), some (u2, 133/1000),
   some (u1, 39/100), some (u3, 199/1000)]

/-- The url aggregate produced from file6, in first-occurrence order. -/
def urls6 : List (String × List ℚ) :=
  [(u1, [39/100, 39/100, 39/100]), (u2, [133/1000]), (u3, [199/1000])]

/-- A two-line file whose second, last line does not match: one half of
its lines are dropped. -/
def fileDrop : List (Option (String × ℚ)) := [some (r"u", 1), none]

/-- A three-line file whose two trailing lines do not match. -/
def fileTail : List (Option (String × ℚ)) := [some (r"u", 1), none, none]

/-- A valid log file name with embedded date 2017-06-30. -/
def logName1 : String := r"nginx-access-ui.log-20170630"

/-- A valid log file name with embedded date 2017-05-29. -/
def logName2 : String := r"nginx-access-ui.log-20170529"

/-- A file name matching the log pattern whose date group 99999999 does
not parse as a date. -/
def badLogName : String := r"nginx-access-ui.log-99999999"

/-- The date embedded in logName1. -/
def dateJun30 : Date := ⟨2017, 6, 30⟩

/-- The report path generated for dateJun30 under the demonstration
configuration. -/
def resPath : String := (cfgDemo 20).REPORT_DIR ++ report_file_generate dateJun30

/-- The conclusion of claim C2 about calculate_report_metrics: the full
table carries the url keys in order; rows are computed by the stated
formulas; the returned table is drawn from the full table; when the
number of urls exceeds REPORT_SIZE exactly REPORT_SIZE rows remain;
every dropped row has time_avg at most that of every kept row; and for
every time_avg value the kept rows with that value form an initial
segment, in order, of the full-table rows with that value (stable tie
breaking). -/
def MetricsSpec (cfg : Config) (urls : List (String × List ℚ)) (summary_lines : ℕ)
    (requests_time : ℚ) : Prop :=
  (metricsTable urls summary_lines requests_time).map Metrics.url = urls.map Prod.fst
  ∧ (∀ k v, (k, v) ∈ urls →
      ∀ mr ∈ metricsTable urls summary_lines requests_time, mr.url = k →
        mr.count = v.length ∧ mr.time_sum = qsum v ∧
        mr.time_avg = qsum v / (v.length : ℚ) ∧ mr.time_max = qmax v ∧
        mr.time_med = pymedian v ∧
        mr.count_perc = round3 ((v.length : ℚ) / (summary_lines : ℚ) * 100) ∧
        mr.time_perc = round3 (qsum v / requests_time * 100))
  ∧ (∀ mr ∈ calculate_report_metrics cfg urls summary_lines requests_time,
      mr ∈ metricsTable urls summary_lines requests_time)
  ∧ (cfg.REPORT_SIZE < urls.length →
      (calculate_report_metrics cfg urls summary_lines requests_time).length = cfg.REPORT_SIZE)
  ∧ (∀ mr ∈ metricsTable urls summary_lines requests_time,
      mr ∉ calculate_report_metrics cfg urls summary_lines requests_time →
      ∀ mk2 ∈ calculate_report_metrics cfg urls summary_lines requests_time,
        mr.time_avg ≤ mk2.time_avg)
  ∧ (∀ q : ℚ, ∃ n,
      (calculate_report_metrics cfg urls summary_lines requests_time).filter
          (fun mr => decide (mr.time_avg = q)) =
        ((metricsTable urls summary_lines requests_time).filter
          (fun mr => decide (mr.time_avg = q))).take n)

/-- The conclusion of claim C3 about find_latest_log, for a directory
whose matching entries all carry parsable date groups: a missing
directory yields none; the scan never raises; a returned log file is a
matching entry carrying its own parsed date, maximal among all parsed
entry dates; some entry dated after the sentinel guarantees a returned
log file; and a directory without matching entries yields none. -/
def LocatorSpec (entries : List String) : Prop :=
  find_latest_log none = .ok none
  ∧ (∃ res, find_latest_log (some entries) = .ok res)
  ∧ (∀ lf, find_latest_log (some entries) = .ok (some lf) →
      lf.name ∈ entries ∧ entryDate lf.name = some lf.date ∧
      ∀ e ∈ entries, ∀ de, entryDate e = some de → encDate de ≤ encDate lf.date)
  ∧ ((∃ e ∈ entries, ∃ de, entryDate e = some de ∧ encDate dateMin < encDate de) →
      ∃ lf, find_latest_log (some entries) = .ok (some lf))
  ∧ ((∀ e ∈ entries, findToken e = none) → find_latest_log (some entries) = .ok none)

/-- The drop percentage for a given total and matched line count, as
the formula of line 123 computes it: the difference over the total,
times 100, rounded to three decimals. -/
def dropRatio (total matched : ℕ) : ℚ :=
  round3 (((total : ℚ) - (matched : ℚ)) / (total : ℚ) * 100)


theorem round3_of_lt (x : ℚ) (n : ℤ) (h1 : (n : ℚ) ≤ x * 1000) (h2 : x * 1000 < (n : ℚ) + 1)
    (h3 : x * 1000 - (n : ℚ) < 1/2) : round3 x = (n : ℚ) / 1000 := by
  have hf : ⌊x * 1000⌋ = n := by rw [Int.floor_eq_iff]; exact ⟨h1, by linarith⟩
  simp only [round3, roundHalfEven, hf]
  rw [if_pos h3]

theorem round3_of_gt (x : ℚ) (n : ℤ) (h1 : (n : ℚ) ≤ x * 1000) (h2 : x * 1000 < (n : ℚ) + 1)
    (h3 : 1/2 < x * 1000 - (n : ℚ)) : round3 x = ((n : ℚ) + 1) / 1000 := by
  have hf : ⌊x * 1000⌋ = n := by rw [Int.floor_eq_iff]; exact ⟨h1, by linarith⟩
  simp only [round3, roundHalfEven, hf]
  rw [if_neg (by linarith), if_pos h3]
  push_cast
  ring

theorem round3_zero : round3 0 = 0 := by
  rw [round3_of_lt _ 0 (by norm_num) (by norm_num) (by norm_num)]
  norm_num

theorem round3_fifty : round3 (50 : ℚ) = 50 := by
  rw [round3_of_lt _ 50000 (by norm_num) (by norm_num) (by norm_num)]
  norm_num

theorem round3_drop6 : round3 ((50 : ℚ) / 3) = 16667 / 1000 := by
  rw [round3_of_gt _ 16666 (by norm_num) (by norm_num) (by norm_num)]
  norm_num

theorem agg_demo0_eval : aggregate_parse_values (cfgDemo 0) (parse_log file6) =
    .error (.runtime (16667/1000) 0) := by
  simp only [cfgDemo, file6, u1, u2, u3, parse_log, parseFrom, aggregate_parse_values, aggLoop,
    updateUrls, dropGate]
  norm_num [round3_drop6]

theorem agg_demo20_eval : aggregate_parse_values (cfgDemo 20) (parse_log file6) =
    .ok (urls6, 6, 1502/1000) := by
  simp only [cfgDemo, file6, u1, u2, u3, urls6, parse_log, parseFrom, aggregate_parse_values,
    aggLoop, updateUrls, dropGate]
  norm_num [round3_drop6]
  simp

theorem countMatched_append (a b : List (Option (String × ℚ))) :
    countMatched (a ++ b) = countMatched a + countMatched b := by
  simp [countMatched, List.filter_append]

theorem parseFrom_append (a b : List (Option (String × ℚ))) : ∀ s p,
    parseFrom s p (a ++ b) = parseFrom s p a ++ parseFrom (s + a.length) (p + countMatched a) b := by
  induction a with
  | nil => intro s p; simp [parseFrom, countMatched]
  | cons x rest ih =>
    intro s p
    match x with
    | none =>
      have h2 : countMatched (none :: rest) = countMatched rest := by
        simp [countMatched, List.filter]
      simp only [List.cons_append, parseFrom, List.length_cons, h2, List.append_eq]
      rw [ih, show s + 1 + rest.length = s + (rest.length + 1) from by omega]
    | some d =>
      have h2 : countMatched (some d :: rest) = countMatched rest + 1 := by
        simp [countMatched, List.filter, Nat.add_comm]
      simp only [List.cons_append, parseFrom, List.length_cons, h2, List.append_eq]
      rw [ih, show s + 1 + rest.length = s + (rest.length + 1) from by omega,
        show p + 1 + countMatched rest = p + (countMatched rest + 1) from by omega]

theorem aggLoop_append (l1 l2 : List ((String × ℚ) × ℕ × ℕ)) : ∀ urls rt s p,
    aggLoop (l1 ++ l2) urls rt s p =
      aggLoop l2 (aggLoop l1 urls rt s p).1 (aggLoop l1 urls rt s p).2.1
        (aggLoop l1 urls rt s p).2.2.1 (aggLoop l1 urls rt s p).2.2.2 := by
  induction l1 with
  | nil => intro urls rt s p; simp [aggLoop]
  | cons x rest ih =>
    intro urls rt s p
    obtain ⟨d2, s2, p2⟩ := x
    simp only [List.cons_append, aggLoop, List.append_eq]
    exact ih _ _ _ _

theorem aggLoop_counters_last (file : List (Option (String × ℚ)))
    (pre : List (Option (String × ℚ))) (d : String × ℚ) (hf : file = pre ++ [some d]) :
    (aggLoop (parse_log file) [] 0 0 0).2.2 = (file.length, countMatched file) := by
  subst hf
  rw [parse_log, parseFrom_append, aggLoop_append]
  simp [parseFrom, aggLoop, countMatched_append, countMatched, List.filter]

/-- C1, corrected.  As stated the claim fails: when unmatched lines
follow the last matched line, the loop variables read by the aggregator
after the loop undercount the total (see the counterexample).  Amended
claim, proved here: for every log file whose last line matches the
pattern (then the final loop values are the true total and matched
counts, and total_lines is positive), the aggregator computes
drop_ratio by the stated rounded formula and raises the parse-quality
error carrying the actual and the allowed percentage exactly when
drop_ratio exceeds MAX_DROP, returning normally otherwise; in
particular for total 6 and matched 5 the ratio is 16.667, which fails
with MAX_DROP 0 and succeeds with MAX_DROP 20. -/
theorem C1_drop_gate (cfg : Config) (file : List (Option (String × ℚ)))
    (h : ∃ pre d, file = pre ++ [some d]) :
    (cfg.MAX_DROP < dropRatio file.length (countMatched file) →
      aggregate_parse_values cfg (parse_log file) =
        .error (.runtime (dropRatio file.length (countMatched file)) cfg.MAX_DROP))
    ∧ (dropRatio file.length (countMatched file) ≤ cfg.MAX_DROP →
      ∃ urls rt, aggregate_parse_values cfg (parse_log file) = .ok (urls, file.length, rt))
    ∧ dropRatio 6 5 = 16667 / 1000
    ∧ aggregate_parse_values (cfgDemo 0) (parse_log file6) = .error (.runtime (16667/1000) 0)
    ∧ aggregate_parse_values (cfgDemo 20) (parse_log file6) = .ok (urls6, 6, 1502/1000) := by
  obtain ⟨pre, d, hf⟩ := h
  have hc := aggLoop_counters_last file pre d hf
  have hlen : file.length = pre.length + 1 := by subst hf; simp
  have hre : aggregate_parse_values cfg (parse_log file) =
      dropGate cfg (aggLoop (parse_log file) [] 0 0 0).1
        (aggLoop (parse_log file) [] 0 0 0).2.1 file.length (countMatched file) := by
    simp only [aggregate_parse_values]
    rw [hc]
  have h0 : ¬ (file.length = 0) := by omega
  refine ⟨?_, ?_, ?_, agg_demo0_eval, agg_demo20_eval⟩
  · intro hgt
    simp only [dropRatio] at hgt ⊢
    rw [hre]
    simp only [dropGate]
    rw [if_neg h0, if_pos hgt]
  · intro hle
    simp only [dropRatio] at hle
    rw [hre]
    simp only [dropGate]
    rw [if_neg h0, if_neg (not_lt.mpr hle)]
    exact ⟨_, _, rfl⟩
  · norm_num [dropRatio, round3_drop6]

/-- Witness for C1: the amended theorem applied to the six-line file
with five matched lines, whose last line matches. -/
theorem C1_drop_gate_witness :
    aggregate_parse_values (cfgDemo 0) (parse_log file6) = .error (.runtime (16667/1000) 0)
    ∧ aggregate_parse_values (cfgDemo 20) (parse_log file6) = .ok (urls6, 6, 1502/1000) :=
  ⟨(C1_drop_gate (cfgDemo 0) file6
      ⟨[some (u1, 39/100), none, some (u1, 39/100), some (u2, 133/1000), some (u1, 39/100)],
        (u3, 199/1000), rfl⟩).2.2.2.1,
   (C1_drop_gate (cfgDemo 20) file6
      ⟨[some (u1, 39/100), none, some (u1, 39/100), some (u2, 133/1000), some (u1, 39/100)],
        (u3, 199/1000), rfl⟩).2.2.2.2⟩

/-- C1 counterexample: a two-line file whose unmatched line is last.
The parse counts total 2 and matched 1, the claim ratio is 50 percent,
far over the allowed 5 percent, yet the aggregator returns normally
(with the undercounted total 1), because the loop variables only carry
the counts of the last yielded triple. -/
theorem C1_counterexample :
    fileDrop.length = 2 ∧ countMatched fileDrop = 1
    ∧ dropRatio 2 1 = 50 ∧ (5 : ℚ) < 50
    ∧ aggregate_parse_values (cfgDemo 5) (parse_log fileDrop) = .ok ([(r"u", [1])], 1, 1) := by
  refine ⟨by decide, by decide, ?_, by norm_num, ?_⟩
  · norm_num [dropRatio, round3_fifty]
  · simp only [cfgDemo, fileDrop, parse_log, parseFrom, aggregate_parse_values, aggLoop,
      updateUrls, dropGate]
    norm_num [round3_zero]

/-- C6 (code bug in the source): for an empty log file nothing is
yielded, the loop variables keep their zero initial values, and the
drop computation divides by zero, raising ZeroDivisionError instead of
handling the empty input explicitly. -/
theorem C6_empty_div_zero :
    aggregate_parse_values (cfgDemo 5) (parse_log []) = .error .zeroDivision := rfl

/-- C7 (code bug in the source): the total used by the aggregator is
the line number of the last matched line, not the length of the whole
file: for a three-line file with only its first line matching, the
aggregator returns total 1 while the file has 3 lines, one matched; and
for a nonempty file with no matching line at all the total used is 0
and the drop computation raises ZeroDivisionError. -/
theorem C7_total_undercount :
    aggregate_parse_values (cfgDemo 5) (parse_log fileTail) = .ok ([(r"u", [1])], 1, 1)
    ∧ fileTail.length = 3 ∧ countMatched fileTail = 1
    ∧ aggregate_parse_values (cfgDemo 5) (parse_log [none]) = .error .zeroDivision := by
  refine ⟨?_, by decide, by decide, rfl⟩
  simp only [cfgDemo, fileTail, parse_log, parseFrom, aggregate_parse_values, aggLoop,
    updateUrls, dropGate]
  norm_num [round3_zero]

theorem metricsTable_map_url (urls : List (String × List ℚ)) (summary_lines : ℕ)
    (requests_time : ℚ) :
    (metricsTable urls summary_lines requests_time).map Metrics.url = urls.map Prod.fst := by
  simp [metricsTable, mkUrlMetrics, List.map_map, Function.comp]

theorem assoc_nodup_eq (l : List (String × List ℚ)) (hnd : (l.map Prod.fst).Nodup)
    {k : String} {v w : List ℚ} (hv : (k, v) ∈ l) (hw : (k, w) ∈ l) : v = w := by
  induction l with
  | nil => cases hv
  | cons a rest ih =>
    simp only [List.map_cons, List.nodup_cons] at hnd
    rcases List.mem_cons.mp hv with h1 | h1
    · rcases List.mem_cons.mp hw with h2 | h2
      · exact (Prod.ext_iff.mp (h1.trans h2.symm)).2
      · exfalso
        exact hnd.1 (h1 ▸ List.mem_map.mpr ⟨(k, w), h2, rfl⟩)
    · rcases List.mem_cons.mp hw with h2 | h2
      · exfalso
        exact hnd.1 (h2 ▸ List.mem_map.mpr ⟨(k, v), h1, rfl⟩)
      · exact ih hnd.2 h1 h2

theorem filter_orderedInsert_avg (q : ℚ) (x : Metrics) (l : List Metrics) :
    (List.orderedInsert avgGe x l).filter (fun mr => decide (mr.time_avg = q)) =
      if x.time_avg = q
      then x :: l.filter (fun mr => decide (mr.time_avg = q))
      else l.filter (fun mr => decide (mr.time_avg = q)) := by
  induction l with
  | nil =>
    by_cases hx : x.time_avg = q <;> simp [List.orderedInsert, List.filter_cons, hx]
  | cons y ys ih =>
    simp only [List.orderedInsert]
    by_cases hr : avgGe x y
    · rw [if_pos hr]
      by_cases hx : x.time_avg = q <;> simp [List.filter_cons, hx]
    · rw [if_neg hr]
      by_cases hx : x.time_avg = q
      · have hy : ¬ (y.time_avg = q) := by
          intro hyq
          exact hr (le_of_eq (hyq.trans hx.symm))
        simp [List.filter_cons, hy, hx, ih]
      · simp [List.filter_cons, hx, ih]

theorem filter_insertionSort_avg (q : ℚ) : ∀ l : List Metrics,
    (List.insertionSort avgGe l).filter (fun mr => decide (mr.time_avg = q)) =
      l.filter (fun mr => decide (mr.time_avg = q)) := by
  intro l
  induction l with
  | nil => rfl
  | cons x xs ih =>
    simp only [List.insertionSort]
    rw [filter_orderedInsert_avg]
    by_cases hx : x.time_avg = q
    · rw [if_pos hx, ih]
      simp [List.filter_cons, hx]
    · rw [if_neg hx, ih]
      simp [List.filter_cons, hx]

theorem filter_take_init {α : Type} (P : α → Bool) : ∀ (nn : ℕ) (l : List α),
    ∃ mm, (l.take nn).filter P = (l.filter P).take mm := by
  intro nn l
  induction l generalizing nn with
  | nil => exact ⟨0, by simp⟩
  | cons x xs ih =>
    cases nn with
    | zero => exact ⟨0, by simp⟩
    | succ n =>
      obtain ⟨mm, hmm⟩ := ih n
      by_cases hx : P x
      · exact ⟨mm + 1, by simp [List.take_succ_cons, List.filter_cons, hx, hmm]⟩
      · exact ⟨mm, by simp [List.take_succ_cons, List.filter_cons, hx, hmm]⟩

/-- C2, confirmed: for every url aggregate with distinct keys and
nonempty per-url time lists, every positive total line count and every
positive total request time, the metrics calculator produces one row
per url key, in order, whose fields are count, sum, mean, maximum,
statistical median (mean of the two middle values for even counts) and
the two percentages rounded to three decimals; and whatever it returns
is drawn from that table, with exactly REPORT_SIZE rows remaining when
the url count exceeds REPORT_SIZE, every dropped row ranking no higher
by time_avg than any kept row, and ties kept stably in original table
order. -/
theorem C2_metrics (cfg : Config) (urls : List (String × List ℚ)) (summary_lines : ℕ)
    (requests_time : ℚ) (hk : (urls.map Prod.fst).Nodup) (hne : ∀ p ∈ urls, p.2 ≠ [])
    (ht : 0 < summary_lines) (hr : 0 < requests_time) :
    MetricsSpec cfg urls summary_lines requests_time := by
  have hlen : (metricsTable urls summary_lines requests_time).length = urls.length := by
    simp [metricsTable]
  refine ⟨metricsTable_map_url urls summary_lines requests_time, ?_, ?_, ?_, ?_, ?_⟩
  · intro k v hkv mr hmr hurl
    obtain ⟨p, hp, rfl⟩ := List.mem_map.mp hmr
    have hp1 : p.1 = k := hurl
    have hveq : v = p.2 := by
      refine assoc_nodup_eq urls hk hkv ?_
      rw [← hp1]
      exact hp
    subst hveq
    exact ⟨rfl, rfl, rfl, rfl, rfl, rfl, rfl⟩
  · intro mr hmr
    by_cases hsz : cfg.REPORT_SIZE < (metricsTable urls summary_lines requests_time).length
    · simp only [calculate_report_metrics, if_pos hsz] at hmr
      exact (List.perm_insertionSort avgGe _).subset (List.take_subset _ _ hmr)
    · simpa only [calculate_report_metrics, if_neg hsz] using hmr
  · intro hsz
    have hsz2 : cfg.REPORT_SIZE < (metricsTable urls summary_lines requests_time).length := by
      omega
    simp only [calculate_report_metrics, if_pos hsz2, List.length_take]
    have hslen : (List.insertionSort avgGe (metricsTable urls summary_lines requests_time)).length
        = urls.length := by
      rw [(List.perm_insertionSort avgGe _).length_eq, hlen]
    omega
  · intro mr hmr hnot mk2 hmk2
    by_cases hsz : cfg.REPORT_SIZE < (metricsTable urls summary_lines requests_time).length
    · simp only [calculate_report_metrics, if_pos hsz] at hnot hmk2
      have hsort : List.Pairwise avgGe
          (List.insertionSort avgGe (metricsTable urls summary_lines requests_time)) :=
        List.sorted_insertionSort avgGe _
      have hmr2 : mr ∈ List.insertionSort avgGe (metricsTable urls summary_lines requests_time) :=
        (List.perm_insertionSort avgGe _).mem_iff.mpr hmr
      rw [← List.take_append_drop cfg.REPORT_SIZE
        (List.insertionSort avgGe (metricsTable urls summary_lines requests_time))] at hmr2 hsort
      rcases List.mem_append.mp hmr2 with hin | hin
      · exact absurd hin hnot
      · exact (List.pairwise_append.mp hsort).2.2 mk2 hmk2 mr hin
    · simp only [calculate_report_metrics, if_neg hsz] at hnot
      exact absurd hmr hnot
  · intro q
    by_cases hsz : cfg.REPORT_SIZE < (metricsTable urls summary_lines requests_time).length
    · simp only [calculate_report_metrics, if_pos hsz]
      obtain ⟨mm, hmm⟩ := filter_take_init (fun mr => decide (mr.time_avg = q)) cfg.REPORT_SIZE
        (List.insertionSort avgGe (metricsTable urls summary_lines requests_time))
      exact ⟨mm, by rw [hmm, filter_insertionSort_avg]⟩
    · simp only [calculate_report_metrics, if_neg hsz]
      exact ⟨((metricsTable urls summary_lines requests_time).filter
        (fun mr => decide (mr.time_avg = q))).length, by rw [List.take_length]⟩

/-- Witness for C2: the theorem applied to the three-url aggregate of
the repository test fixture, with total 6 lines and total request time
1.502. -/
theorem C2_metrics_witness : MetricsSpec (cfgDemo 5) urls6 6 (1502/1000) :=
  C2_metrics (cfgDemo 5) urls6 6 (1502/1000) (by decide) (by decide) (by norm_num) (by norm_num)

/-- C10, confirmed: when the number of distinct urls does not exceed
REPORT_SIZE the truncation branch is not taken, and the calculator
returns the metrics table itself, one row per url in the insertion
order of the aggregate, with no sorting by time_avg. -/
theorem C10_no_sort (cfg : Config) (urls : List (String × List ℚ)) (summary_lines : ℕ)
    (requests_time : ℚ) (h : urls.length ≤ cfg.REPORT_SIZE) :
    calculate_report_metrics cfg urls summary_lines requests_time =
      metricsTable urls summary_lines requests_time
    ∧ (calculate_report_metrics cfg urls summary_lines requests_time).map Metrics.url
        = urls.map Prod.fst := by
  have hlen : (metricsTable urls summary_lines requests_time).length = urls.length := by
    simp [metricsTable]
  have hno : ¬ (cfg.REPORT_SIZE < (metricsTable urls summary_lines requests_time).length) := by
    omega
  have he : calculate_report_metrics cfg urls summary_lines requests_time =
      metricsTable urls summary_lines requests_time := by
    simp only [calculate_report_metrics, if_neg hno]
  exact ⟨he, by rw [he, metricsTable_map_url]⟩

/-- Witness for C10: the three-url aggregate against the default
report size 1000. -/
theorem C10_no_sort_witness :
    calculate_report_metrics (cfgDemo 5) urls6 6 (1502/1000) = metricsTable urls6 6 (1502/1000)
    ∧ (calculate_report_metrics (cfgDemo 5) urls6 6 (1502/1000)).map Metrics.url
        = urls6.map Prod.fst :=
  C10_no_sort (cfgDemo 5) urls6 6 (1502/1000) (by decide)

theorem locLoop_skip (entries : List String) (hnone : ∀ e ∈ entries, findToken e = none) :
    ∀ dt f, locLoop entries dt f = .ok (dt, f) := by
  induction entries with
  | nil => intro dt f; rfl
  | cons e rest ih =>
    intro dt f
    have he := hnone e (List.mem_cons_self e rest)
    simp only [locLoop, he]
    exact ih (fun x hx => hnone x (List.mem_cons_of_mem e hx)) dt f

theorem locLoop_error (entries : List String)
    (h : ∃ e ∈ entries, ∃ tok, findToken e = some tok ∧ strptimeYmd tok = none) :
    ∀ dt f, locLoop entries dt f = .error () := by
  induction entries with
  | nil => rcases h with ⟨e, he, _⟩; cases he
  | cons e rest ih =>
    intro dt f
    rcases h with ⟨e0, he0, tok, htok, hbad⟩
    rcases List.mem_cons.mp he0 with rfl | hmem
    · simp only [locLoop, htok, hbad]
    · cases hfe : findToken e with
      | none =>
        simp only [locLoop, hfe]
        exact ih ⟨e0, hmem, tok, htok, hbad⟩ dt f
      | some t2 =>
        cases hst : strptimeYmd t2 with
        | none => simp only [locLoop, hfe, hst]
        | some d2 =>
          simp only [locLoop, hfe, hst]
          by_cases hlt : encDate dt < encDate d2
          · rw [if_pos hlt]
            exact ih ⟨e0, hmem, tok, htok, hbad⟩ _ _
          · rw [if_neg hlt]
            exact ih ⟨e0, hmem, tok, htok, hbad⟩ _ _

theorem locLoop_ok (entries : List String)
    (h : ∀ e ∈ entries, ∀ tok, findToken e = some tok → ∃ dt2, strptimeYmd tok = some dt2) :
    ∀ dt f, ∃ dt2 f2, locLoop entries dt f = .ok (dt2, f2)
      ∧ encDate dt ≤ encDate dt2
      ∧ ((dt2 = dt ∧ f2 = f) ∨ (f2 ∈ entries ∧ entryDate f2 = some dt2))
      ∧ (∀ e ∈ entries, ∀ de, entryDate e = some de → encDate de ≤ encDate dt2) := by
  induction entries with
  | nil =>
    intro dt f
    exact ⟨dt, f, rfl, le_refl _, Or.inl ⟨rfl, rfl⟩, by intro e he; cases he⟩
  | cons e rest ih =>
    intro dt f
    have hrest : ∀ x ∈ rest, ∀ tok, findToken x = some tok → ∃ dt2, strptimeYmd tok = some dt2 :=
      fun x hx => h x (List.mem_cons_of_mem e hx)
    cases hfe : findToken e with
    | none =>
      obtain ⟨dt2, f2, heq, hle, hor, hall⟩ := ih hrest dt f
      refine ⟨dt2, f2, ?_, hle, ?_, ?_⟩
      · simp only [locLoop, hfe]
        exact heq
      · rcases hor with h1 | h1
        · exact Or.inl h1
        · exact Or.inr ⟨List.mem_cons_of_mem e h1.1, h1.2⟩
      · intro x hx de hde
        rcases List.mem_cons.mp hx with rfl | hx2
        · exfalso
          rw [entryDate, hfe] at hde
          cases hde
        · exact hall x hx2 de hde
    | some tok =>
      obtain ⟨de0, hde0⟩ := h e (List.mem_cons_self e rest) tok hfe
      by_cases hlt : encDate dt < encDate de0
      · obtain ⟨dt2, f2, heq, hle, hor, hall⟩ := ih hrest de0 e
        refine ⟨dt2, f2, ?_, ?_, ?_, ?_⟩
        · simp only [locLoop, hfe, hde0]
          rw [if_pos hlt]
          exact heq
        · exact le_trans (le_of_lt hlt) hle
        · rcases hor with ⟨h1, h2⟩ | h1
          · refine Or.inr ⟨?_, ?_⟩
            · rw [h2]
              exact List.mem_cons_self e rest
            · rw [h2, h1]
              simp [entryDate, hfe, hde0]
          · exact Or.inr ⟨List.mem_cons_of_mem e h1.1, h1.2⟩
        · intro x hx dex hdex
          rcases List.mem_cons.mp hx with rfl | hx2
          · have hdd : de0 = dex := by
              rw [entryDate, hfe] at hdex
              exact Option.some.inj (hde0.symm.trans hdex)
            rw [← hdd]
            exact hle
          · exact hall x hx2 dex hdex
      · obtain ⟨dt2, f2, heq, hle, hor, hall⟩ := ih hrest dt f
        refine ⟨dt2, f2, ?_, hle, ?_, ?_⟩
        · simp only [locLoop, hfe, hde0]
          rw [if_neg hlt]
          exact heq
        · rcases hor with h1 | h1
          · exact Or.inl h1
          · exact Or.inr ⟨List.mem_cons_of_mem e h1.1, h1.2⟩
        · intro x hx dex hdex
          rcases List.mem_cons.mp hx with rfl | hx2
          · have hdd : de0 = dex := by
              rw [entryDate, hfe] at hdex
              exact Option.some.inj (hde0.symm.trans hdex)
            rw [← hdd]
            exact le_trans (not_lt.mp hlt) hle
          · exact hall x hx2 dex hdex

/-- C3, corrected.  As stated the claim fails: a matching entry whose
date group does not parse makes the locator raise ValueError instead
of returning the maximum-dated entry (see the counterexample).  Amended
claim, proved here: for a directory whose matching entries all carry
parsable date groups, the locator raises nothing; a missing directory
or a directory without matching entries yields the absent result; a
returned entry is a matching one carrying its own parsed date, maximal
among all parsed entry dates; and some entry dated after the sentinel
datetime.date.min guarantees an entry is returned. -/
theorem C3_locator (entries : List String)
    (h : ∀ e ∈ entries, ∀ tok, findToken e = some tok → ∃ dt2, strptimeYmd tok = some dt2) :
    LocatorSpec entries := by
  obtain ⟨dt2, f2, heq, hle, hor, hall⟩ := locLoop_ok entries h dateMin (r"")
  have hshow : find_latest_log (some entries) =
      .ok (if encDate dateMin < encDate dt2 then some ⟨f2, dt2⟩ else none) := by
    simp only [find_latest_log, heq]
  refine ⟨rfl, ⟨_, hshow⟩, ?_, ?_, ?_⟩
  · intro lf hlf
    rw [hshow] at hlf
    by_cases hlt : encDate dateMin < encDate dt2
    · rw [if_pos hlt] at hlf
      have hlf2 : lf = ⟨f2, dt2⟩ := (Option.some.inj (Except.ok.inj hlf)).symm
      subst hlf2
      rcases hor with ⟨h1, _⟩ | h1
      · rw [h1] at hlt
        exact absurd hlt (lt_irrefl _)
      · exact ⟨h1.1, h1.2, hall⟩
    · rw [if_neg hlt] at hlf
      exact Option.noConfusion (Except.ok.inj hlf)
  · intro hex
    rcases hex with ⟨e, he, de, hde, hgt⟩
    have hlt : encDate dateMin < encDate dt2 := lt_of_lt_of_le hgt (hall e he de hde)
    exact ⟨⟨f2, dt2⟩, by rw [hshow, if_pos hlt]⟩
  · intro hnone
    simp only [find_latest_log, locLoop_skip entries hnone dateMin (r"")]
    rw [if_neg (lt_irrefl _)]

/-- Witness for C3: a directory with two well-formed log names; the
amended locator contract holds for it. -/
theorem C3_locator_witness : LocatorSpec [logName1, logName2] := by
  refine C3_locator _ ?_
  intro e he tok htok
  rcases List.mem_cons.mp he with rfl | he2
  · have h2 : findToken logName1 = some (r"20170630") := by decide
    rw [h2] at htok
    exact ⟨⟨2017, 6, 30⟩, by rw [← Option.some.inj htok]; decide⟩
  rcases List.mem_cons.mp he2 with rfl | he3
  · have h2 : findToken logName2 = some (r"20170529") := by decide
    rw [h2] at htok
    exact ⟨⟨2017, 5, 29⟩, by rw [← Option.some.inj htok]; decide⟩
  cases he3

/-- C3 counterexample: a directory holding a well-formed log name dated
2017-06-30 and a matching entry whose date group 99999999 does not
parse.  The claim promises the 2017-06-30 entry; the locator instead
raises ValueError.  Alone, the well-formed entry is returned. -/
theorem C3_counterexample :
    find_latest_log (some [logName1, badLogName]) = .error ()
    ∧ entryDate logName1 = some dateJun30
    ∧ find_latest_log (some [logName1]) = .ok (some ⟨logName1, dateJun30⟩) := by
  refine ⟨by decide, by decide, by decide⟩

/-- C8, corrected.  As stated the claim fails: an entry whose date
group does not parse is not excluded; there is no try-except around
strptime, so the ValueError aborts the whole scan.  Amended claim,
proved here: whenever some directory entry matches the pattern but its
date group fails to parse, find_latest_log raises ValueError. -/
theorem C8_raises (entries : List String)
    (h : ∃ e ∈ entries, ∃ tok, findToken e = some tok ∧ strptimeYmd tok = none) :
    find_latest_log (some entries) = .error () := by
  simp only [find_latest_log, locLoop_error entries h dateMin (r"")]

/-- Witness for C8: the single-entry directory with the unparsable
date group 99999999. -/
theorem C8_raises_witness : find_latest_log (some [badLogName]) = .error () :=
  C8_raises [badLogName]
    ⟨badLogName, List.mem_cons_self _ _, r"99999999", by decide, by decide⟩

/-- C8 counterexample: the entry with date group 99999999 matches the
filename pattern, its date group fails to parse, and the locator run on
a directory containing it raises instead of completing normally with
that entry excluded. -/
theorem C8_counterexample :
    findToken badLogName = some (r"99999999")
    ∧ strptimeYmd (r"99999999") = none
    ∧ find_latest_log (some [badLogName]) = .error ()
    ∧ find_latest_log (some ([] : List String)) = .ok none := by
  refine ⟨by decide, by decide, by decide, by decide⟩

theorem sdApp (a b : String) : (a ++ b).data = a.data ++ b.data := by
  obtain ⟨da⟩ := a
  obtain ⟨db⟩ := b
  rfl

theorem pyHead (mr : Metrics) (t : List Metrics) :
    (pyStrTable (mr :: t)).data.take 3 = [Char.ofNat 91, Char.ofNat 123, Char.ofNat 39] := by
  have h1 : (r"[" : String).data = [Char.ofNat 91] := by decide
  have h2 : obr.data = [Char.ofNat 123] := rfl
  have h3 : squo.data = [Char.ofNat 39] := rfl
  cases t with
  | nil =>
    simp only [pyStrTable, pyStrItems, pyStrDict, sdApp, h1, h2, h3, List.append_assoc,
      List.cons_append, List.nil_append, List.take_succ_cons, List.take_zero]
  | cons y ys =>
    simp only [pyStrTable, pyStrItems, pyStrDict, sdApp, h1, h2, h3, List.append_assoc,
      List.cons_append, List.nil_append, List.take_succ_cons, List.take_zero]

theorem jsonHead (mr : Metrics) (t : List Metrics) :
    (jsonTable (mr :: t)).data.take 3 = [Char.ofNat 91, Char.ofNat 123, Char.ofNat 34] := by
  have h1 : (r"[" : String).data = [Char.ofNat 91] := by decide
  have h2 : obr.data = [Char.ofNat 123] := rfl
  have h3 : dquo.data = [Char.ofNat 34] := rfl
  cases t with
  | nil =>
    simp only [jsonTable, jsonItems, jsonDict, sdApp, h1, h2, h3, List.append_assoc,
      List.cons_append, List.nil_append, List.take_succ_cons, List.take_zero]
  | cons y ys =>
    simp only [jsonTable, jsonItems, jsonDict, sdApp, h1, h2, h3, List.append_assoc,
      List.cons_append, List.nil_append, List.take_succ_cons, List.take_zero]

/-- C4, corrected.  As stated the claim fails: the placeholder is
replaced by str(table), the Python repr with single-quoted keys and
string values, not by a JSON serialization -- the repository test
asserts exactly that single-quoted text (see the counterexample).
Amended claim, proved here: the rendered report is the template with
the placeholder replaced by the Python string representation of the
metrics table, and for every nonempty table that text differs from the
JSON serialization of the same table. -/
theorem C4_subst (pre post : String) (mr : Metrics) (t : List Metrics) :
    renderTemplate pre post (mr :: t) = pre ++ pyStrTable (mr :: t) ++ post
    ∧ pyStrTable (mr :: t) ≠ jsonTable (mr :: t) := by
  refine ⟨rfl, ?_⟩
  intro heq
  have h3 := congrArg (fun s => s.data.take 3) heq
  simp only [pyHead, jsonHead] at h3
  exact absurd h3 (by decide)

/-- C4 counterexample: for a one-row table the text substituted by the
report generator differs from the template with the JSON serialization
of that table substituted, so parsing the embedded text as JSON cannot
return the metrics: the embedded text is not JSON at all. -/
theorem C4_counterexample :
    renderTemplate (r"<html>") (r"</html>") [⟨r"u", 1, 1, 1, 1, 1, 50, 50⟩] ≠
      r"<html>" ++ jsonTable [⟨r"u", 1, 1, 1, 1, 1, 50, 50⟩] ++ r"</html>" := by
  decide

/-- C9, corrected.  The surfacing half of the claim holds: every failed
generation returns the IOError to the caller.  As stated the claim
fails nonetheless: the source opens the report file for writing before
reading the template, so a template read failure or a report write
failure leaves a (partial or empty) report file behind, and a later run
checks mere existence and treats it as a finished report (see the
counterexample).  Amended claim, proved here: failures are surfaced;
only a failure to open the template leaves the report directory
unchanged, while a read or write failure afterwards leaves the report
path present. -/
theorem C9_leftover (oc : GenOutcome) (path : String) (reports : List String)
    (h : ¬ (oc = .ok)) :
    (generate_report_io oc path reports).1 = .error .ioFail
    ∧ (oc = .openTemplateFail → (generate_report_io oc path reports).2 = reports)
    ∧ ((oc = .readFail ∨ oc = .writeFail) →
        (generate_report_io oc path reports).2 = path :: reports) := by
  cases oc with
  | ok => exact absurd rfl h
  | openTemplateFail =>
    refine ⟨rfl, fun _ => rfl, ?_⟩
    intro hx
    rcases hx with hx | hx <;> exact nomatch hx
  | readFail =>
    refine ⟨rfl, ?_, fun _ => rfl⟩
    intro hx
    exact nomatch hx
  | writeFail =>
    refine ⟨rfl, ?_, fun _ => rfl⟩
    intro hx
    exact nomatch hx

/-- Witness for C9: a write failure at the demonstration report path. -/
theorem C9_leftover_witness :
    (generate_report_io .writeFail resPath []).1 = .error .ioFail
    ∧ (GenOutcome.writeFail = .openTemplateFail →
        (generate_report_io .writeFail resPath []).2 = [])
    ∧ ((GenOutcome.writeFail = .readFail ∨ GenOutcome.writeFail = .writeFail) →
        (generate_report_io .writeFail resPath []).2 = [resPath]) :=
  C9_leftover .writeFail resPath [] (by decide)

/-- C9 counterexample: a report write that fails midway surfaces the
error, yet leaves the report path existing, and the existence check of
a later run returns true for it, indistinguishable from success. -/
theorem C9_counterexample :
    (generate_report_io .writeFail resPath []).1 = .error .ioFail
    ∧ report_is_exist (cfgDemo 20) (generate_report_io .writeFail resPath []).2 dateJun30
        = true := by
  refine ⟨rfl, by decide⟩

/-- C5, confirmed: the report filename is a pure function of the log
date (2017-06-30 yields report-2017.06.30.html); the f-string of the
existence check computes the same name as the one of generation; a run
whose located log already has its report present returns with the
report directory unchanged; and a run that succeeded leaves a state on
which running again returns the same directory unchanged, whatever the
file-operation outcome of the second run would be: the second run is a
no-op with no exception and no overwrite. -/
theorem C5_pipeline (cfg : Config) (listing : Option (List String)) (reports res : List String)
    (getLog : String → List (Option (String × ℚ))) (oc oc2 : GenOutcome) :
    report_file_generate dateJun30 = r"report-2017.06.30.html"
    ∧ (∀ d, report_file_generate d = report_file_exist d)
    ∧ (∀ lf, find_latest_log listing = .ok (some lf) →
        report_is_exist cfg reports lf.date = true →
        mainRun cfg listing reports getLog oc = .ok reports)
    ∧ (mainRun cfg listing reports getLog oc = .ok res →
        mainRun cfg listing res getLog oc2 = .ok res) := by
  refine ⟨by decide, fun _ => rfl, ?_, ?_⟩
  · intro lf hfind hex
    simp [mainRun, hfind, hex]
  · intro h1
    cases hf : find_latest_log listing with
    | error e =>
      rw [mainRun] at h1
      simp only [hf] at h1
      cases h1
    | ok olf =>
      cases olf with
      | none =>
        rw [mainRun]
        simp only [hf]
      | some lf =>
        by_cases hex : report_is_exist cfg reports lf.date = true
        · rw [mainRun] at h1
          simp only [hf, hex, if_true] at h1
          have hres : reports = res := Except.ok.inj h1
          subst hres
          rw [mainRun]
          simp [hf, hex]
        · rw [mainRun] at h1
          simp only [hf] at h1
          rw [if_neg hex] at h1
          cases hagg : aggregate_parse_values cfg (parse_log (getLog lf.name)) with
          | error e2 =>
            rw [hagg] at h1
            cases h1
          | ok triple =>
            obtain ⟨urls0, s0, rt0⟩ := triple
            rw [hagg] at h1
            cases oc with
            | openTemplateFail => cases h1
            | readFail => cases h1
            | writeFail => cases h1
            | ok =>
              simp only [generate_report_io] at h1
              have hres : (cfg.REPORT_DIR ++ report_file_generate lf.date) :: reports = res :=
                Except.ok.inj h1
              have hex2 : report_is_exist cfg res lf.date = true := by
                rw [← hres]
                simp only [report_is_exist, report_file_exist, report_file_generate]
                exact decide_eq_true_eq.mpr (List.mem_cons_self _ _)
              rw [mainRun]
              simp [hf, hex2]

/-- Witness for C5: a concrete full pipeline run over a directory with
one log, an empty report directory and the six-line log file; running
again on the resulting state is a no-op returning the same report
directory. -/
theorem C5_pipeline_witness :
    mainRun (cfgDemo 20) (some [logName1]) [] (fun _ => file6) .ok = .ok [resPath]
    ∧ mainRun (cfgDemo 20) (some [logName1]) [resPath] (fun _ => file6) .ok = .ok [resPath] := by
  have h1 : mainRun (cfgDemo 20) (some [logName1]) [] (fun _ => file6) .ok = .ok [resPath] := by
    rw [mainRun]
    simp only [show find_latest_log (some [logName1]) = .ok (some ⟨logName1, dateJun30⟩)
        from by decide,
      show report_is_exist (cfgDemo 20) [] dateJun30 = false from by decide,
      Bool.false_eq_true, if_false, agg_demo20_eval, generate_report_io]
    rfl
  have h2 := (C5_pipeline (cfgDemo 20) (some [logName1]) [] [resPath]
    (fun _ => file6) .ok .ok).2.2.2 h1
  exact ⟨h1, h2⟩
